/-
Verification of the PICTURE-HOSTING server (src/server.js) against its
natural-language specification.  The JavaScript pipeline is shallowly
embedded: filenames are `String`, byte buffers are `List Nat`, the
Express handlers become pure functions that also return the trace of
storage-backend calls they would issue.
-/
import Mathlib

namespace PicHost

/-- Bool test that the pattern list is an initial segment of the other list.
Model of the hit test JavaScript `String.prototype.replace` performs at each
scan position. -/
def listStartsWith : List Char → List Char → Bool
  | [], _ => true
  | _ :: _, [] => false
  | p :: ps, c :: cs => decide (p = c) && listStartsWith ps cs

/-- Model of JavaScript `s.replace(pat, rep)` with a string pattern, on char
lists: only the first occurrence of `pat` is replaced; if `pat` does not
occur, the input is returned unchanged; an empty pattern matches at the
start. -/
def replaceFirstAux (pat rep : List Char) : List Char → List Char
  | [] => if pat.isEmpty then rep else []
  | c :: cs =>
    if listStartsWith pat (c :: cs) then rep ++ (c :: cs).drop pat.length
    else c :: replaceFirstAux pat rep cs

/-- Model of JavaScript `s.replace(pat, rep)` (string pattern: first
occurrence only). -/
def replaceFirst (s pat rep : String) : String :=
  String.mk (replaceFirstAux pat.data rep.data s.data)

/-- Model of Node's `path.extname` restricted to separator-free basenames,
which is how server.js uses it: the substring from the last dot onward,
except that a name with no dot, a name whose only dot is its first
character, or the name `..` yields the empty string. -/
def extname (f : String) : String :=
  if f = ".." then ""
  else if '.' ∈ f.data then
    if f.data.length - 1 -
        (f.data.reverse.takeWhile (fun c => decide (c ≠ '.'))).length = 0
    then ""
    else String.mk
      ('.' :: (f.data.reverse.takeWhile (fun c => decide (c ≠ '.'))).reverse)
  else ""

/-- Model of JavaScript `s.slice(1)`: drop the first character. -/
def strTail (s : String) : String := String.mk s.data.tail

/-- Model of Node's `path.basename` on `/`-separated keys: the part after
the last slash. -/
def basename (f : String) : String :=
  String.mk ((f.data.reverse.takeWhile (fun c => decide (c ≠ '/'))).reverse)

/-- Model of JavaScript `key.endsWith('/')`. -/
def endsWithSlash (s : String) : Bool :=
  decide (s.data.getLast? = some '/')

/-- The fixed allow-list of media types (server.js `ALLOWED`). -/
def ALLOWED : List String :=
  ["image/jpeg", "image/png", "image/webp", "image/gif", "image/avif"]

/-- Model of the `file-type` dependency's `fromBuffer`: magic-number sniffing
of the buffer's leading bytes, for the signatures relevant to this server
(JPEG, PNG, GIF, WEBP, AVIF); `none` when no known signature matches. -/
def fileTypeFromBuffer (buf : List Nat) : Option String :=
  if buf.take 3 = [0xFF, 0xD8, 0xFF] then some "image/jpeg"
  else if buf.take 8 = [0x89, 0x50, 0x4E, 0x47, 0x0D, 0x0A, 0x1A, 0x0A] then
    some "image/png"
  else if buf.take 6 = [0x47, 0x49, 0x46, 0x38, 0x37, 0x61] then some "image/gif"
  else if buf.take 6 = [0x47, 0x49, 0x46, 0x38, 0x39, 0x61] then some "image/gif"
  else if buf.take 4 = [0x52, 0x49, 0x46, 0x46] ∧
      (buf.drop 8).take 4 = [0x57, 0x45, 0x42, 0x50] then some "image/webp"
  else if (buf.drop 4).take 8 =
      [0x66, 0x74, 0x79, 0x70, 0x61, 0x76, 0x69, 0x66] then some "image/avif"
  else none

/-- Model of the `mime-types` dependency's `extension` for the media types
this server can resolve; `none` models the library's `false` for unknown
types. -/
def mimeExtension : String → Option String
  | "image/jpeg" => some "jpg"
  | "image/png" => some "png"
  | "image/webp" => some "webp"
  | "image/gif" => some "gif"
  | "image/avif" => some "avif"
  | _ => none

/-- server.js line 104: the resolved media type is the sniffed one, falling
back to the client-declared `req.file.mimetype` when sniffing is
inconclusive. -/
def detectedMime (buf : List Nat) (declared : String) : String :=
  (fileTypeFromBuffer buf).getD declared

/-- server.js line 112: generated filename `timestamp-random.ext`; the
timestamp and random components are parameters of the model. -/
def uploadFilename (ts rand ext : String) : String :=
  ts ++ "-" ++ rand ++ "." ++ ext

/-- server.js line 113: thumbnail name used by Upload,
`filename.replace('.ext', '_thumb.ext')` (first occurrence). -/
def uploadThumbName (filename ext : String) : String :=
  replaceFirst filename ("." ++ ext) ("_thumb." ++ ext)

/-- server.js line 164: thumbnail name used by the S3 branch of List,
`file.replace('.', '_thumb.')` — the first dot is replaced. -/
def s3ListThumbName (file : String) : String :=
  replaceFirst file "." "_thumb."

/-- server.js lines 180-181, 216-217 and 222-223: thumbnail name used by the
local branch of List and by both branches of Delete —
`ext = path.extname(f).slice(1)` then
`f.replace('.ext', '_thumb.ext')` (first occurrence). -/
def extBasedThumbName (file : String) : String :=
  let ext := strTail (extname file)
  replaceFirst file ("." ++ ext) ("_thumb." ++ ext)

/-- The specification's derivation rule, stated from its words for
comparison: insert the `_thumb` marker immediately before the final
extension segment. -/
def insertThumbBeforeLastExt (f : String) : String :=
  let e := extname f
  String.mk (f.data.take (f.data.length - e.data.length) ++
    "_thumb".data ++ e.data)

/-- A call issued to the storage backend (an S3 `putObject`/`deleteObject`,
or the corresponding local write/unlink). Keys carry the `images/` prefix
of the S3 branch. -/
inductive BackendCall where
  | put (key : String)
  | del (key : String)
  deriving DecidableEq

/-- Whether a backend call is a delete. -/
def BackendCall.isDel : BackendCall → Bool
  | .put _ => false
  | .del _ => true

/-- Outcome of the upload handler. `payloadTooLarge` is the multer
`LIMIT_FILE_SIZE` rejection raised before the handler body runs;
`serverError` is the generic 500 produced by the handler's catch block. -/
inductive UploadOutcome where
  | noFile
  | payloadTooLarge
  | unsupportedType
  | serverError
  | ok (filename thumbName mimeType : String)
  deriving DecidableEq

/-- Input of one upload request. `ts` and `rand` stand for the
`Date.now()` and `Math.random()` components of the generated name; the
three `Bool`s say whether the sharp re-encode and the two backend puts
succeed in this execution. -/
structure UploadInput where
  buf : Option (List Nat)
  declaredMime : String
  ts : String
  rand : String
  sharpOk : Bool
  origPutOk : Bool
  thumbPutOk : Bool
  deriving DecidableEq

/-- server.js lines 60-63 and 98-152: the upload pipeline. Returns the
outcome together with the trace of backend calls, in order. Multer's
`fileSize` limit rejects oversized bodies before the handler body runs;
the handler then checks for a file, sniffs the type, rejects types outside
`ALLOWED`, generates the names, builds the thumbnail with sharp, and only
then issues the two sequential puts; any thrown error is caught and
reported as a generic server error, with no further backend call. -/
def uploadPipeline (maxSize : Nat) (i : UploadInput) :
    UploadOutcome × List BackendCall :=
  match i.buf with
  | none => (.noFile, [])
  | some b =>
    if maxSize < b.length then (.payloadTooLarge, [])
    else
      let detected := detectedMime b i.declaredMime
      if ALLOWED.contains detected then
        let ext := (mimeExtension detected).getD "png"
        let filename := uploadFilename i.ts i.rand ext
        let thumbName := uploadThumbName filename ext
        if i.sharpOk then
          let origKey := "images/" ++ filename
          let thumbKey := "images/" ++ thumbName
          if i.origPutOk then
            if i.thumbPutOk then
              (.ok filename thumbName detected, [.put origKey, .put thumbKey])
            else (.serverError, [.put origKey, .put thumbKey])
          else (.serverError, [.put origKey])
        else (.serverError, [])
      else (.unsupportedType, [])

/-- One object of an S3 `listObjectsV2` answer: key, size, last-modified
time (modelled as a number). -/
structure S3Obj where
  key : String
  size : Nat
  lastModified : Nat
  deriving DecidableEq

/-- One entry of the `/api/list` answer. `thumbFile` is the derived
thumbnail filename; the served URLs are fixed per-variant prefixes applied
to `file` and `thumbFile` and are not repeated here. -/
structure ListEntry where
  file : String
  thumbFile : String
  size : Nat
  date : Nat
  deriving DecidableEq

/-- server.js lines 157-173, S3 branch of List: keep the objects whose key
does not end in `/`, project each to an entry whose thumbnail name is the
first-dot substitution on the key's basename, and reverse the listing
order. -/
def listS3 (contents : List S3Obj) : List ListEntry :=
  ((contents.filter (fun o => !endsWithSlash o.key)).map (fun o =>
    let file := basename o.key
    { file := file, thumbFile := s3ListThumbName file,
      size := o.size, date := o.lastModified })).reverse

/-- One directory entry of the local uploads directory. -/
structure LocalFile where
  name : String
  isDir : Bool
  size : Nat
  mtime : Nat
  deriving DecidableEq

/-- server.js lines 176-191, local branch of List: drop the entry named
`thumbs` and every directory, project the rest to entries whose thumbnail
name comes from the extension-based substitution, and sort descending by
date. The JavaScript `Array.sort` with the date comparator is modelled as
insertion sort with the same order. -/
def listLocal (files : List LocalFile) : List ListEntry :=
  let images := (files.filter (fun f => decide (f.name ≠ "thumbs"))).filter
    (fun f => !f.isDir)
  (images.map (fun f =>
    { file := f.name, thumbFile := extBasedThumbName f.name,
      size := f.size, date := f.mtime })).insertionSort
    (fun a b => b.date ≤ a.date)

/-- Bool check that a list of entries is sorted descending by date. -/
def dateSortedDesc : List ListEntry → Bool
  | [] => true
  | [_] => true
  | a :: b :: rest => decide (b.date ≤ a.date) && dateSortedDesc (b :: rest)

/-- One scaled dimension of the sharp `fit: 'inside'` resize: the dimension
times `1024 / max(w, h)`, rounded half up, at least one pixel. -/
def scaleDim (d m : Nat) : Nat :=
  max 1 ((d * 1024 + m / 2) / m)

/-- Model of `sharp(buf).resize({width: 1024, height: 1024, fit: 'inside'})`
(server.js lines 117-119) following sharp's documented semantics for
`fit: 'inside'`: scale preserving aspect ratio so the result is as large
as possible within 1024x1024. No `withoutEnlargement` option is passed,
so inputs smaller than the box are scaled up. Rounding is modelled as
round half up. -/
def resizeInside (w h : Nat) : Nat × Nat :=
  let m := max w h
  if m = 0 then (0, 0) else (scaleDim w m, scaleDim h m)

/-- Model of sharp's output format for this call chain: no `toFormat` is
applied before `toBuffer`, so the output encoding is the input's. -/
def sharpOutputFormat (inputFormat : String) : String := inputFormat

/-- Local-variant storage state: the filenames present in `uploads/` and in
`uploads/thumbs/`. -/
structure Store where
  originals : List String
  thumbs : List String
  deriving DecidableEq

/-- server.js lines 219-224, local branch of Delete: unlink the named file
from `uploads/` if it exists, and its extension-based thumbnail companion
from `uploads/thumbs/` if that exists. -/
def deleteLocalFiles (st : Store) (file : String) : Store :=
  { originals := st.originals.filter (fun g => decide (g ≠ file)),
    thumbs := st.thumbs.filter
      (fun g => decide (g ≠ extBasedThumbName file)) }

/-- server.js lines 214-218, S3 branch of Delete: `deleteObject` on
`images/file` and on `images/thumb`; S3 deletes are idempotent, so an
absent key is simply not present afterwards and no error is raised. -/
def deleteS3Keys (keys : List String) (file : String) : List String :=
  (keys.filter (fun k => decide (k ≠ "images/" ++ file))).filter
    (fun k => decide (k ≠ "images/" ++ extBasedThumbName file))

/-- Outcome of the delete handler. -/
inductive DeleteResult where
  | forbidden
  | ok
  deriving DecidableEq

/-- server.js lines 210-211: the admin-secret gate. The query value
defaults to the empty string; the request is blocked exactly when
`ADMIN_KEY` is a non-empty string differing from the supplied key. -/
def adminCheckBlocks (adminKey : String) (queryKey : Option String) : Bool :=
  let key := queryKey.getD ""
  decide (adminKey ≠ "") && decide (key ≠ adminKey)

/-- server.js lines 209-231, local branch: the delete handler. -/
def deleteHandlerLocal (adminKey : String) (queryKey : Option String)
    (st : Store) (file : String) : DeleteResult × Store :=
  if adminCheckBlocks adminKey queryKey then (.forbidden, st)
  else (.ok, deleteLocalFiles st file)

/-- server.js lines 209-231, S3 branch: the delete handler. -/
def deleteHandlerS3 (adminKey : String) (queryKey : Option String)
    (keys : List String) (file : String) : DeleteResult × List String :=
  if adminCheckBlocks adminKey queryKey then (.forbidden, keys)
  else (.ok, deleteS3Keys keys file)

example : replaceFirst "a.b.png" "." "_thumb." = "a_thumb.b.png" := by decide
example : replaceFirst "a.b.png" ".png" "_thumb.png" = "a.b_thumb.png" := by decide
example : replaceFirst "1700-x.gif" ".gif" "_thumb.gif" = "1700-x_thumb.gif" := by decide
example : extname "a.b.png" = ".png" := by decide
example : extname ".hidden" = "" := by decide
example : extname "noext" = "" := by decide
example : basename "images/a.png" = "a.png" := by decide
example : strTail ".png" = "png" := by decide
example : detectedMime [0x47, 0x49, 0x46, 0x38, 0x39, 0x61] "image/png" = "image/gif" := by decide
example : detectedMime [1, 2, 3] "image/png" = "image/png" := by decide
example : extBasedThumbName "a.b.png" = "a.b_thumb.png" := by decide
example : extBasedThumbName "a.png.png" = "a_thumb.png.png" := by decide
example : insertThumbBeforeLastExt "a.b.png" = "a.b_thumb.png" := by decide
example : s3ListThumbName "a.b.png" = "a_thumb.b.png" := by decide

lemma filter_self_idem {α : Type} (p : α → Bool) (l : List α) :
    (l.filter p).filter p = l.filter p := by
  induction l with
  | nil => rfl
  | cons a t ih =>
    by_cases h : p a = true
    · simp [List.filter_cons, h, ih]
    · simp only [List.filter_cons]
      rw [if_neg h, ih]

lemma deleteLocalFiles_idem (st : Store) (file : String) :
    deleteLocalFiles (deleteLocalFiles st file) file = deleteLocalFiles st file := by
  simp [deleteLocalFiles, filter_self_idem]

lemma deleteS3Keys_idem (keys : List String) (file : String) :
    deleteS3Keys (deleteS3Keys keys file) file = deleteS3Keys keys file := by
  simp only [deleteS3Keys, List.filter_filter]
  congr 1
  funext k
  cases h1 : decide (k ≠ "images/" ++ file) <;>
    cases h2 : decide (k ≠ "images/" ++ extBasedThumbName file) <;> simp [h1, h2]

/-- C7: Delete is idempotent: deleting an absent original or thumbnail is
not an error, the operation removes both the original and the derived
thumbnail key, it always reports success, and a second Delete on the same
id (with no secret configured, or with a matching secret) succeeds again
and leaves the state unchanged. -/
theorem delete_idempotent (st : Store) (keys : List String)
    (file secret : String) :
    (deleteHandlerLocal "" none st file).1 = .ok
    ∧ (deleteHandlerLocal secret (some secret) st file).1 = .ok
    ∧ file ∉ (deleteLocalFiles st file).originals
    ∧ extBasedThumbName file ∉ (deleteLocalFiles st file).thumbs
    ∧ deleteHandlerLocal "" none (deleteLocalFiles st file) file =
        (.ok, deleteLocalFiles st file)
    ∧ ("images/" ++ file) ∉ deleteS3Keys keys file
    ∧ ("images/" ++ extBasedThumbName file) ∉ deleteS3Keys keys file
    ∧ deleteHandlerS3 "" none (deleteS3Keys keys file) file =
        (.ok, deleteS3Keys keys file) := by
  refine ⟨?_, ?_, ?_, ?_, ?_, ?_, ?_, ?_⟩
  · simp [deleteHandlerLocal, adminCheckBlocks]
  · simp [deleteHandlerLocal, adminCheckBlocks]
  · simp [deleteLocalFiles, List.mem_filter]
  · simp [deleteLocalFiles, List.mem_filter]
  · simp [deleteHandlerLocal, adminCheckBlocks, deleteLocalFiles_idem]
  · simp [deleteS3Keys, List.mem_filter]
  · simp [deleteS3Keys, List.mem_filter]
  · simp [deleteHandlerS3, adminCheckBlocks, deleteS3Keys_idem]

/-- C8: with an admin secret configured, Delete fails with Forbidden and
deletes nothing unless the supplied key matches the secret exactly; when
it matches, both the original and the derived thumbnail key are deleted
and success is reported. With secret "abc": no key fails with Forbidden,
key=abc succeeds. -/
theorem delete_admin_secret_check (admin key file : String) (st : Store)
    (keys : List String) (hA : admin ≠ "") :
    (key ≠ admin →
      deleteHandlerLocal admin (some key) st file = (.forbidden, st)
      ∧ deleteHandlerS3 admin (some key) keys file = (.forbidden, keys))
    ∧ (key = admin →
      deleteHandlerLocal admin (some key) st file =
        (.ok, deleteLocalFiles st file)
      ∧ deleteHandlerS3 admin (some key) keys file =
        (.ok, deleteS3Keys keys file))
    ∧ deleteHandlerLocal "abc" none st file = (.forbidden, st)
    ∧ deleteHandlerLocal "abc" (some "abc") st file =
        (.ok, deleteLocalFiles st file) := by
  refine ⟨?_, ?_, ?_, ?_⟩
  · intro hk
    constructor <;> simp [deleteHandlerLocal, deleteHandlerS3,
      adminCheckBlocks, hA, hk]
  · intro hk
    subst hk
    constructor <;> simp [deleteHandlerLocal, deleteHandlerS3,
      adminCheckBlocks]
  · simp [deleteHandlerLocal, adminCheckBlocks]
  · simp [deleteHandlerLocal, adminCheckBlocks]

/-- Witness for C8 at admin secret "abc", supplied key "x", file
"a.png". -/
theorem delete_admin_secret_check_witness :
    deleteHandlerLocal "abc" (some "x") ⟨["a.png"], ["a_thumb.png"]⟩
      "a.png" = (.forbidden, ⟨["a.png"], ["a_thumb.png"]⟩)
    ∧ deleteHandlerLocal "abc" (some "abc") ⟨["a.png"], ["a_thumb.png"]⟩
      "a.png" = (.ok, ⟨[], []⟩) := by
  have h := delete_admin_secret_check "abc" "x" "a.png"
    ⟨["a.png"], ["a_thumb.png"]⟩ [] (by decide)
  refine ⟨(h.1 (by decide)).1, ?_⟩
  have h2 := delete_admin_secret_check "abc" "abc" "a.png"
    ⟨["a.png"], ["a_thumb.png"]⟩ [] (by decide)
  have h3 := (h2.2.1 rfl).1
  rw [h3]
  decide

/-- C10: with no admin secret configured (the default, ADMIN_KEY = ""),
the secret check is vacuous: whatever key is supplied, including none,
Delete never answers Forbidden and proceeds to delete the named original
and its thumbnail companion. -/
theorem delete_no_secret_configured (queryKey : Option String) (st : Store)
    (keys : List String) (file : String) :
    deleteHandlerLocal "" queryKey st file = (.ok, deleteLocalFiles st file)
    ∧ deleteHandlerS3 "" queryKey keys file =
        (.ok, deleteS3Keys keys file) := by
  constructor <;> simp [deleteHandlerLocal, deleteHandlerS3, adminCheckBlocks]

/-- C4: every upload larger than the configured max size and every upload
rejected by content validation (no file, or resolved type outside the
allow-list) fails before any backend I/O: the trace of backend calls is
empty, so the backend state is unchanged; size violations fail with the
PayloadTooLarge outcome. -/
theorem upload_rejects_before_backend_io (maxSize : Nat) (i j : UploadInput)
    (b : List Nat) (hb : i.buf = some b) :
    (maxSize < b.length → uploadPipeline maxSize i = (.payloadTooLarge, []))
    ∧ (b.length ≤ maxSize →
        ALLOWED.contains (detectedMime b i.declaredMime) = false →
        uploadPipeline maxSize i = (.unsupportedType, []))
    ∧ (j.buf = none → uploadPipeline maxSize j = (.noFile, [])) := by
  obtain ⟨obuf, dm, ts, rand, s1, s2, s3⟩ := i
  have hb' : obuf = some b := hb
  subst hb'
  refine ⟨?_, ?_, ?_⟩
  · intro h
    simp [uploadPipeline, h]
  · intro h1 h2
    have hm : detectedMime b dm ∉ ALLOWED := by simpa using h2
    simp [uploadPipeline, Nat.not_lt.mpr h1, hm]
  · intro hj
    obtain ⟨obuf', dm', ts', rand', t1, t2, t3⟩ := j
    have hj' : obuf' = none := hj
    subst hj'
    simp [uploadPipeline]

/-- Witness for C4: a 3-byte body over a 2-byte limit is rejected as too
large with an empty trace, and an unrecognized body declared text/html is
rejected as unsupported with an empty trace. -/
theorem upload_rejects_before_backend_io_witness :
    uploadPipeline 2 ⟨some [1, 2, 3], "image/png", "1", "r", true, true, true⟩
      = (.payloadTooLarge, [])
    ∧ uploadPipeline 100
        ⟨some [1, 2, 3], "text/html", "1", "r", true, true, true⟩
      = (.unsupportedType, []) := by
  have h := upload_rejects_before_backend_io 2
    ⟨some [1, 2, 3], "image/png", "1", "r", true, true, true⟩
    ⟨some [1, 2, 3], "image/png", "1", "r", true, true, true⟩
    [1, 2, 3] rfl
  have h2 := upload_rejects_before_backend_io 100
    ⟨some [1, 2, 3], "text/html", "1", "r", true, true, true⟩
    ⟨some [1, 2, 3], "text/html", "1", "r", true, true, true⟩
    [1, 2, 3] rfl
  exact ⟨h.1 (by decide), h2.2.1 (by decide) (by decide)⟩

/-- C5: the resolved media type is the sniffed one, with the declared type
used only when sniffing is inconclusive; the upload is rejected as
unsupported exactly when the resolved type is outside the allow-list; and
a buffer carrying a GIF signature but declared image/png is accepted with
extension gif. -/
theorem upload_sniffing_resolution (buf : List Nat) (declared t : String)
    (maxSize : Nat) (i : UploadInput) (b : List Nat)
    (hb : i.buf = some b) (hsize : b.length ≤ maxSize) :
    (fileTypeFromBuffer buf = some t → detectedMime buf declared = t)
    ∧ (fileTypeFromBuffer buf = none → detectedMime buf declared = declared)
    ∧ ((uploadPipeline maxSize i).1 = .unsupportedType ↔
        ALLOWED.contains (detectedMime b i.declaredMime) = false)
    ∧ uploadPipeline 100
        ⟨some [0x47, 0x49, 0x46, 0x38, 0x39, 0x61], "image/png",
         "1", "r", true, true, true⟩
      = (.ok "1-r.gif" "1-r_thumb.gif" "image/gif",
         [.put "images/1-r.gif", .put "images/1-r_thumb.gif"]) := by
  obtain ⟨obuf, dm, ts, rand, s1, s2, s3⟩ := i
  have hb' : obuf = some b := hb
  subst hb'
  refine ⟨?_, ?_, ?_, by decide⟩
  · intro h
    simp [detectedMime, h]
  · intro h
    simp [detectedMime, h]
  · by_cases hm : detectedMime b dm ∈ ALLOWED
    · cases s1 <;> cases s2 <;> cases s3 <;>
        simp [uploadPipeline, Nat.not_lt.mpr hsize, hm]
    · simp [uploadPipeline, Nat.not_lt.mpr hsize, hm]

/-- Witness for C5 at a GIF-signature buffer declared image/png within a
100-byte limit. -/
theorem upload_sniffing_resolution_witness :
    detectedMime [0x47, 0x49, 0x46, 0x38, 0x39, 0x61] "image/png"
      = "image/gif"
    ∧ uploadPipeline 100
        ⟨some [0x47, 0x49, 0x46, 0x38, 0x39, 0x61], "image/png",
         "1", "r", true, true, true⟩
      = (.ok "1-r.gif" "1-r_thumb.gif" "image/gif",
         [.put "images/1-r.gif", .put "images/1-r_thumb.gif"]) := by
  have h := upload_sniffing_resolution
    [0x47, 0x49, 0x46, 0x38, 0x39, 0x61] "image/png" "image/gif" 100
    ⟨some [0x47, 0x49, 0x46, 0x38, 0x39, 0x61], "image/png",
     "1", "r", true, true, true⟩
    [0x47, 0x49, 0x46, 0x38, 0x39, 0x61] rfl (by decide)
  exact ⟨h.1 (by decide), h.2.2.2⟩

/-- C3 counterexample: an execution in which the original put succeeds and
the thumbnail put fails issues no cleanup delete at all — the trace is
exactly the two puts, with zero delete calls — refuting the claimed
best-effort cleanup of the just-written original. -/
theorem upload_no_cleanup_delete_cex :
    uploadPipeline 100
      ⟨some [0x47, 0x49, 0x46, 0x38, 0x39, 0x61], "image/gif",
       "1", "r", true, true, false⟩
      = (.serverError, [.put "images/1-r.gif", .put "images/1-r_thumb.gif"])
    ∧ (uploadPipeline 100
        ⟨some [0x47, 0x49, 0x46, 0x38, 0x39, 0x61], "image/gif",
         "1", "r", true, true, false⟩).2.any BackendCall.isDel = false := by
  decide

/-- C3 amended: when the original put succeeds and the thumbnail put fails,
the handler's catch block reports a generic server error and performs no
cleanup: the trace is the two puts and contains no delete, so the original
is left stored without its thumbnail. -/
theorem upload_thumb_failure_no_cleanup (maxSize : Nat) (i : UploadInput)
    (b : List Nat) (hb : i.buf = some b) (hsize : b.length ≤ maxSize)
    (hc : ALLOWED.contains (detectedMime b i.declaredMime) = true)
    (hsharp : i.sharpOk = true) (horig : i.origPutOk = true)
    (hthumb : i.thumbPutOk = false) :
    uploadPipeline maxSize i = (.serverError,
      [.put ("images/" ++ uploadFilename i.ts i.rand
        ((mimeExtension (detectedMime b i.declaredMime)).getD "png")),
       .put ("images/" ++ uploadThumbName
        (uploadFilename i.ts i.rand
          ((mimeExtension (detectedMime b i.declaredMime)).getD "png"))
        ((mimeExtension (detectedMime b i.declaredMime)).getD "png"))])
    ∧ (uploadPipeline maxSize i).2.any BackendCall.isDel = false := by
  obtain ⟨obuf, dm, ts, rand, s1, s2, s3⟩ := i
  have hb' : obuf = some b := hb
  subst hb'
  have hs1 : s1 = true := hsharp
  have hs2 : s2 = true := horig
  have hs3 : s3 = false := hthumb
  subst hs1; subst hs2; subst hs3
  have hm : detectedMime b dm ∈ ALLOWED := by
    simpa using (hc : ALLOWED.contains (detectedMime b dm) = true)
  constructor <;>
    simp [uploadPipeline, Nat.not_lt.mpr hsize, hm, BackendCall.isDel]

/-- Witness for C3's amended theorem at a PNG-signature buffer whose
thumbnail put fails. -/
theorem upload_thumb_failure_no_cleanup_witness :
    uploadPipeline 50
      ⟨some [0x89, 0x50, 0x4E, 0x47, 0x0D, 0x0A, 0x1A, 0x0A], "image/png",
       "2", "s", true, true, false⟩
      = (.serverError,
         [.put "images/2-s.png", .put "images/2-s_thumb.png"])
    ∧ (uploadPipeline 50
        ⟨some [0x89, 0x50, 0x4E, 0x47, 0x0D, 0x0A, 0x1A, 0x0A], "image/png",
         "2", "s", true, true, false⟩).2.any BackendCall.isDel = false := by
  have h := upload_thumb_failure_no_cleanup 50
    ⟨some [0x89, 0x50, 0x4E, 0x47, 0x0D, 0x0A, 0x1A, 0x0A], "image/png",
     "2", "s", true, true, false⟩
    [0x89, 0x50, 0x4E, 0x47, 0x0D, 0x0A, 0x1A, 0x0A]
    rfl (by decide) (by decide) rfl rfl rfl
  exact ⟨h.1, h.2⟩

/-- C2 counterexample: with the bucket holding an original and its
thumbnail under the `images/` prefix, the S3 branch of List returns both —
the thumbnail-marked key is not excluded from the entries. -/
theorem listS3_includes_thumb_keys_cex :
    (listS3 [⟨"images/a.png", 1, 1⟩, ⟨"images/a_thumb.png", 1, 1⟩]).map
      ListEntry.file = ["a_thumb.png", "a.png"]
    ∧ "a_thumb.png" ∈ (listS3 [⟨"images/a.png", 1, 1⟩,
        ⟨"images/a_thumb.png", 1, 1⟩]).map ListEntry.file := by
  decide

/-- C2 amended: the local branch of List excludes the `thumbs` subdirectory
and every directory and derives each entry's thumbnail name from its
filename; the S3 branch excludes only keys ending in `/`, so every other
key under the prefix — including thumbnail-marked keys — yields an entry,
whose thumbnail name is the first-dot substitution on the key's
basename. -/
theorem list_entries_characterization (contents : List S3Obj)
    (files : List LocalFile) :
    (∀ e ∈ listS3 contents, ∃ o ∈ contents, endsWithSlash o.key = false
      ∧ e.file = basename o.key
      ∧ e.thumbFile = s3ListThumbName (basename o.key))
    ∧ (∀ o ∈ contents, endsWithSlash o.key = false →
        ∃ e ∈ listS3 contents, e.file = basename o.key
          ∧ e.thumbFile = s3ListThumbName (basename o.key))
    ∧ (∀ e ∈ listLocal files, ∃ f ∈ files, f.name ≠ "thumbs"
        ∧ f.isDir = false ∧ e.file = f.name
        ∧ e.thumbFile = extBasedThumbName f.name)
    ∧ (∀ f ∈ files, f.name ≠ "thumbs" → f.isDir = false →
        ∃ e ∈ listLocal files, e.file = f.name
          ∧ e.thumbFile = extBasedThumbName f.name) := by
  refine ⟨?_, ?_, ?_, ?_⟩
  · intro e he
    simp only [listS3, List.mem_reverse, List.mem_map, List.mem_filter] at he
    obtain ⟨o, ⟨ho, hs⟩, rfl⟩ := he
    exact ⟨o, ho, by simpa using hs, rfl, rfl⟩
  · intro o ho hs
    refine ⟨ListEntry.mk (basename o.key) (s3ListThumbName (basename o.key))
      o.size o.lastModified, ?_, rfl, rfl⟩
    simp only [listS3, List.mem_reverse, List.mem_map, List.mem_filter]
    exact ⟨o, ⟨ho, by simp [hs]⟩, rfl⟩
  · intro e he
    simp only [listLocal, List.mem_insertionSort, List.mem_map,
      List.mem_filter] at he
    obtain ⟨f, ⟨⟨hf, hn⟩, hd⟩, rfl⟩ := he
    exact ⟨f, hf, by simpa using hn, by simpa using hd, rfl, rfl⟩
  · intro f hf hn hd
    refine ⟨ListEntry.mk f.name (extBasedThumbName f.name) f.size f.mtime,
      ?_, rfl, rfl⟩
    simp only [listLocal, List.mem_insertionSort, List.mem_map,
      List.mem_filter]
    exact ⟨f, ⟨⟨hf, by simp [hn]⟩, by simp [hd]⟩, rfl⟩

/-- Witness for C2's amended theorem on a one-object bucket and a
one-file uploads directory. -/
theorem list_entries_characterization_witness :
    (∃ e ∈ listS3 [⟨"images/b.png", 2, 5⟩], e.file = "b.png"
      ∧ e.thumbFile = "b_thumb.png")
    ∧ (∃ e ∈ listLocal [⟨"c.png", false, 3, 7⟩], e.file = "c.png"
      ∧ e.thumbFile = "c_thumb.png") := by
  have h := list_entries_characterization [⟨"images/b.png", 2, 5⟩]
    [⟨"c.png", false, 3, 7⟩]
  constructor
  · obtain ⟨e, he, h1, h2⟩ := h.2.1 ⟨"images/b.png", 2, 5⟩ (by simp)
      (by decide)
    refine ⟨e, he, ?_, ?_⟩
    · rw [h1]; decide
    · rw [h2]; decide
  · obtain ⟨e, he, h1, h2⟩ := h.2.2.2 ⟨"c.png", false, 3, 7⟩ (by simp)
      (by decide) rfl
    refine ⟨e, he, ?_, ?_⟩
    · rw [h1]
    · rw [h2]; decide

instance : IsTotal ListEntry (fun a b => b.date ≤ a.date) :=
  ⟨fun a b => Nat.le_total b.date a.date⟩

instance : IsTrans ListEntry (fun a b => b.date ≤ a.date) :=
  ⟨fun _ _ _ h1 h2 => Nat.le_trans h2 h1⟩

lemma dateSortedDesc_of_sorted :
    ∀ l : List ListEntry, l.Sorted (fun a b => b.date ≤ a.date) →
      dateSortedDesc l = true
  | [], _ => rfl
  | [_], _ => rfl
  | a :: b :: t, h => by
    have h1 : b.date ≤ a.date := List.rel_of_sorted_cons h b (by simp)
    have h2 := dateSortedDesc_of_sorted (b :: t) h.of_cons
    simp [dateSortedDesc, h1, h2]

/-- C9 counterexample: an S3 listing in ascending key order whose earlier
key was modified later comes back from List in ascending date order — the
S3 branch's output is not sorted descending by modification time. -/
theorem listS3_not_date_sorted_cex :
    dateSortedDesc (listS3 [⟨"images/a.png", 1, 100⟩,
      ⟨"images/b.png", 1, 50⟩]) = false := by
  decide

/-- C9 amended: the local branch's output is sorted descending by date; the
S3 branch merely reverses the enumeration order of the listing (ascending
key order as delivered by the object store), performing no sort by date. -/
theorem list_ordering (files : List LocalFile) (contents : List S3Obj) :
    dateSortedDesc (listLocal files) = true
    ∧ (listS3 contents).map ListEntry.file =
        ((contents.filter (fun o => !endsWithSlash o.key)).map
          (fun o => basename o.key)).reverse := by
  constructor
  · exact dateSortedDesc_of_sorted _ (List.sorted_insertionSort _ _)
  · simp [listS3, List.map_reverse, List.map_map]

lemma stringExt : ∀ {s t : String}, s.data = t.data → s = t :=
  fun {s t} h => by cases s; cases t; exact congrArg String.mk h

lemma strData_append (s t : String) : (s ++ t).data = s.data ++ t.data := by
  cases s; cases t; rfl

lemma strMk_data (s : String) : String.mk s.data = s := by
  cases s; rfl

lemma listStartsWith_append_self (p t : List Char) :
    listStartsWith p (p ++ t) = true := by
  induction p with
  | nil => rfl
  | cons c cs ih => simp [listStartsWith, ih]

lemma replaceFirstAux_at_match (p : Char) (ps rep t : List Char) :
    replaceFirstAux (p :: ps) rep (p :: (ps ++ t)) = rep ++ t := by
  have h1 : listStartsWith (p :: ps) (p :: (ps ++ t)) = true := by
    simp [listStartsWith, listStartsWith_append_self]
  simp [replaceFirstAux, h1, List.drop_left]

lemma replaceFirstAux_skip (p : Char) (ps rep t : List Char) :
    ∀ stem : List Char, (∀ c ∈ stem, c ≠ p) →
      replaceFirstAux (p :: ps) rep (stem ++ t) =
        stem ++ replaceFirstAux (p :: ps) rep t
  | [], _ => by simp
  | c :: cs, h => by
    have hc : c ≠ p := h c (by simp)
    have hcp : (decide (p = c)) = false :=
      decide_eq_false (fun he => hc he.symm)
    have ih := replaceFirstAux_skip p ps rep t cs
      (fun x hx => h x (List.mem_cons_of_mem _ hx))
    simp [replaceFirstAux, listStartsWith, hcp, ih]

lemma takeWhile_append_stop (p : Char → Bool) (x : Char) (hx : p x = false) :
    ∀ (l r : List Char), (∀ c ∈ l, p c = true) →
      (l ++ x :: r).takeWhile p = l
  | [], _, _ => by simp [List.takeWhile_cons, hx]
  | c :: cs, r, h => by
    have h1 : p c = true := h c (by simp)
    have ih := takeWhile_append_stop p x hx cs r
      (fun d hd => h d (List.mem_cons_of_mem _ hd))
    simp [List.takeWhile_cons, h1, ih]

lemma extname_append (stem ext : List Char) (hne : stem ≠ [])
    (hstem : ∀ c ∈ stem, c ≠ '.') (hext : ∀ c ∈ ext, c ≠ '.') :
    extname (String.mk (stem ++ '.' :: ext)) = String.mk ('.' :: ext) := by
  have hdd : String.mk (stem ++ '.' :: ext) ≠ ".." := by
    intro h
    have h2 : stem ++ '.' :: ext = ['.', '.'] := congrArg String.data h
    cases stem with
    | nil => exact hne rfl
    | cons c cs =>
      have h3 : c = '.' := by
        have := congrArg List.head? h2
        simpa using this
      exact hstem c (by simp) h3
  have hmem : '.' ∈ stem ++ '.' :: ext := by simp
  have hrev : (stem ++ '.' :: ext).reverse = ext.reverse ++ '.' :: stem.reverse := by
    simp
  have htw : (ext.reverse ++ '.' :: stem.reverse).takeWhile
      (fun c => decide (c ≠ '.')) = ext.reverse :=
    takeWhile_append_stop _ '.' (by simp) ext.reverse stem.reverse
      (fun c hc => by simp [hext c (List.mem_reverse.mp hc)])
  have hpos : stem.length ≠ 0 := by
    cases stem with
    | nil => exact absurd rfl hne
    | cons c cs => simp
  unfold extname
  dsimp only
  rw [if_neg hdd, if_pos hmem, hrev, htw]
  have hlen : (stem ++ '.' :: ext).length - 1 - ext.reverse.length
      = stem.length := by
    simp [List.length_append]
  rw [hlen, if_neg hpos, List.reverse_reverse]

lemma replaceFirstAux_gen (a b eL rep : List Char)
    (ha : ∀ c ∈ a, c ≠ '.') (hb : ∀ c ∈ b, c ≠ '.') :
    replaceFirstAux ('.' :: eL) rep (a ++ '-' :: (b ++ '.' :: eL)) =
      a ++ '-' :: (b ++ rep) := by
  have hstem : ∀ c ∈ a ++ '-' :: b, c ≠ '.' := by
    intro c hc
    rcases List.mem_append.mp hc with h | h
    · exact ha c h
    · rcases List.mem_cons.mp h with h | h
      · subst h; decide
      · exact hb c h
  have h1 := replaceFirstAux_skip '.' eL rep ('.' :: eL) (a ++ '-' :: b) hstem
  have h2 := replaceFirstAux_at_match '.' eL rep []
  simp only [List.append_nil] at h2
  have h3 : a ++ '-' :: (b ++ '.' :: eL) = (a ++ '-' :: b) ++ '.' :: eL := by
    simp
  rw [h3, h1, h2]
  simp

lemma replaceFirstAux_gen_dot (a b eL rep : List Char)
    (ha : ∀ c ∈ a, c ≠ '.') (hb : ∀ c ∈ b, c ≠ '.') :
    replaceFirstAux ['.'] rep (a ++ '-' :: (b ++ '.' :: eL)) =
      a ++ '-' :: (b ++ (rep ++ eL)) := by
  have hstem : ∀ c ∈ a ++ '-' :: b, c ≠ '.' := by
    intro c hc
    rcases List.mem_append.mp hc with h | h
    · exact ha c h
    · rcases List.mem_cons.mp h with h | h
      · subst h; decide
      · exact hb c h
  have h1 := replaceFirstAux_skip '.' [] rep ('.' :: eL) (a ++ '-' :: b) hstem
  have h2 := replaceFirstAux_at_match '.' [] rep eL
  simp only [List.nil_append] at h2
  have h3 : a ++ '-' :: (b ++ '.' :: eL) = (a ++ '-' :: b) ++ '.' :: eL := by
    simp
  rw [h3, h1, h2]
  simp

/-- C1 counterexample: on the multi-dot filename `a.b.png` the S3 branch of
List inserts the marker at the first dot, giving `a_thumb.b.png` instead of
the claimed `a.b_thumb.png`; and the extension-based rule used by Delete
and local List replaces the first occurrence of the final extension, so on
`a.png.png` it yields `a_thumb.png.png` instead of `a.png_thumb.png`. -/
theorem thumb_derivation_multi_dot_cex :
    s3ListThumbName "a.b.png" = "a_thumb.b.png"
    ∧ insertThumbBeforeLastExt "a.b.png" = "a.b_thumb.png"
    ∧ s3ListThumbName "a.b.png" ≠ insertThumbBeforeLastExt "a.b.png"
    ∧ extBasedThumbName "a.png.png" = "a_thumb.png.png"
    ∧ insertThumbBeforeLastExt "a.png.png" = "a.png_thumb.png"
    ∧ extBasedThumbName "a.png.png" ≠ insertThumbBeforeLastExt "a.png.png" := by
  decide

/-- C1 amended: on filenames of the generated shape `ts-rand.ext` with
dot-free stem components and a dot-free non-empty extension — which covers
every filename this server stores — the four derivations (Upload's, the
extension-based one of Delete and local List, the first-dot one of S3
List) agree and equal the insertion of `_thumb` immediately before the
final extension. On other multi-dot names they diverge from that rule, as
the counterexample shows. -/
theorem thumb_derivations_agree_on_generated_names (ts rand ext : String)
    (hts : ∀ c ∈ ts.data, c ≠ '.') (hrand : ∀ c ∈ rand.data, c ≠ '.')
    (hext : ∀ c ∈ ext.data, c ≠ '.') (hne : ext.data ≠ []) :
    uploadThumbName (uploadFilename ts rand ext) ext =
      ts ++ "-" ++ rand ++ "_thumb." ++ ext
    ∧ extBasedThumbName (uploadFilename ts rand ext) =
      ts ++ "-" ++ rand ++ "_thumb." ++ ext
    ∧ s3ListThumbName (uploadFilename ts rand ext) =
      ts ++ "-" ++ rand ++ "_thumb." ++ ext
    ∧ insertThumbBeforeLastExt (uploadFilename ts rand ext) =
      ts ++ "-" ++ rand ++ "_thumb." ++ ext := by
  have hdot : (".").data = ['.'] := rfl
  have hdash : ("-").data = ['-'] := rfl
  have hthumbDot : ("_thumb.").data = ['_', 't', 'h', 'u', 'm', 'b', '.'] := rfl
  have hthumb : ("_thumb").data = ['_', 't', 'h', 'u', 'm', 'b'] := rfl
  have e1 : (uploadFilename ts rand ext).data =
      ts.data ++ '-' :: (rand.data ++ '.' :: ext.data) := by
    simp [uploadFilename, strData_append]
  have eT : (ts ++ "-" ++ rand ++ "_thumb." ++ ext).data =
      ts.data ++ '-' :: (rand.data ++ ("_thumb.".data ++ ext.data)) := by
    simp [strData_append]
  have hpat : (("." : String) ++ ext).data = '.' :: ext.data := by
    simp [strData_append, hdot]
  have hrep : (("_thumb." : String) ++ ext).data = "_thumb.".data ++ ext.data :=
    strData_append _ _
  have c1 : uploadThumbName (uploadFilename ts rand ext) ext =
      ts ++ "-" ++ rand ++ "_thumb." ++ ext := by
    apply stringExt
    show replaceFirstAux (("." : String) ++ ext).data
      (("_thumb." : String) ++ ext).data (uploadFilename ts rand ext).data = _
    rw [hpat, hrep, e1, eT,
      replaceFirstAux_gen ts.data rand.data ext.data _ hts hrand]
  have c3 : s3ListThumbName (uploadFilename ts rand ext) =
      ts ++ "-" ++ rand ++ "_thumb." ++ ext := by
    apply stringExt
    show replaceFirstAux (".").data ("_thumb.").data
      (uploadFilename ts rand ext).data = _
    rw [hdot, e1, eT,
      replaceFirstAux_gen_dot ts.data rand.data ext.data _ hts hrand]
  have hstem' : ∀ c ∈ ts.data ++ '-' :: rand.data, c ≠ '.' := by
    intro c hc
    rcases List.mem_append.mp hc with h | h
    · exact hts c h
    · rcases List.mem_cons.mp h with h | h
      · subst h; decide
      · exact hrand c h
  have hmkf : uploadFilename ts rand ext =
      String.mk ((ts.data ++ '-' :: rand.data) ++ '.' :: ext.data) := by
    apply stringExt
    rw [e1]
    simp
  have hstemne : ts.data ++ '-' :: rand.data ≠ [] := by simp
  have hextf : extname (uploadFilename ts rand ext) =
      String.mk ('.' :: ext.data) := by
    rw [hmkf]
    exact extname_append _ _ hstemne hstem' hext
  have c2 : extBasedThumbName (uploadFilename ts rand ext) =
      ts ++ "-" ++ rand ++ "_thumb." ++ ext := by
    unfold extBasedThumbName
    rw [hextf]
    have htail : strTail (String.mk ('.' :: ext.data)) = ext := by
      apply stringExt
      show ('.' :: ext.data).tail = ext.data
      rfl
    rw [htail]
    exact c1
  have c4 : insertThumbBeforeLastExt (uploadFilename ts rand ext) =
      ts ++ "-" ++ rand ++ "_thumb." ++ ext := by
    unfold insertThumbBeforeLastExt
    rw [hextf]
    apply stringExt
    show (uploadFilename ts rand ext).data.take
        ((uploadFilename ts rand ext).data.length -
          (String.mk ('.' :: ext.data)).data.length)
      ++ "_thumb".data ++ (String.mk ('.' :: ext.data)).data
      = (ts ++ "-" ++ rand ++ "_thumb." ++ ext).data
    have hlen2 : (uploadFilename ts rand ext).data.length -
        (String.mk ('.' :: ext.data)).data.length =
        (ts.data ++ '-' :: rand.data).length := by
      rw [e1]
      simp
      omega
    have htake : (uploadFilename ts rand ext).data.take
        ((ts.data ++ '-' :: rand.data).length) =
        ts.data ++ '-' :: rand.data := by
      conv_lhs => rw [hmkf]
      exact List.take_left _ _
    rw [hlen2, htake, eT, hthumb, hthumbDot]
    simp
  exact ⟨c1, c2, c3, c4⟩

/-- Witness for C1's amended theorem at the generated filename
`1700-x2.png`. -/
theorem thumb_derivations_agree_witness :
    uploadThumbName "1700-x2.png" "png" = "1700-x2_thumb.png"
    ∧ extBasedThumbName "1700-x2.png" = "1700-x2_thumb.png"
    ∧ s3ListThumbName "1700-x2.png" = "1700-x2_thumb.png"
    ∧ insertThumbBeforeLastExt "1700-x2.png" = "1700-x2_thumb.png" := by
  have h := thumb_derivations_agree_on_generated_names "1700" "x2" "png"
    (by decide) (by decide) (by decide) (by decide)
  have hf : uploadFilename "1700" "x2" "png" = "1700-x2.png" := by decide
  have ht : "1700" ++ "-" ++ "x2" ++ "_thumb." ++ "png" = "1700-x2_thumb.png" := by
    decide
  rw [hf, ht] at h
  exact h

lemma scaleDim_le (d m : Nat) (hm : 1 ≤ m) (hd : d ≤ m) :
    scaleDim d m ≤ 1024 := by
  unfold scaleDim
  have h1 : d * 1024 + m / 2 ≤ m / 2 + 1024 * m := by omega
  have h2 : (d * 1024 + m / 2) / m ≤ (m / 2 + 1024 * m) / m :=
    Nat.div_le_div_right h1
  have h3 : (m / 2 + 1024 * m) / m = m / 2 / m + 1024 :=
    Nat.add_mul_div_right _ _ hm
  have h4 : m / 2 / m = 0 := Nat.div_eq_of_lt (by omega)
  exact max_le (by omega) (by omega)

lemma scaleDim_self (m : Nat) (hm : 1 ≤ m) : scaleDim m m = 1024 := by
  unfold scaleDim
  have h3 : (m / 2 + 1024 * m) / m = m / 2 / m + 1024 :=
    Nat.add_mul_div_right _ _ hm
  have h4 : m / 2 / m = 0 := Nat.div_eq_of_lt (by omega)
  have h5 : m * 1024 + m / 2 = m / 2 + 1024 * m := by omega
  rw [h5, h3, h4]
  simp

lemma scaleDim_aspect (w h : Nat) (hw : 1 ≤ w) (hwh : w ≤ h) :
    scaleDim w h * h ≤ 1024 * w + h ∧ 1024 * w ≤ scaleDim w h * h + h := by
  have hh : 1 ≤ h := le_trans hw hwh
  unfold scaleDim
  set q := (w * 1024 + h / 2) / h with hq
  set r := (w * 1024 + h / 2) % h with hrdef
  have hqr : w * 1024 + h / 2 = h * q + r := (Nat.div_add_mod _ _).symm
  have hr : r < h := Nat.mod_lt _ (by omega)
  rcases Nat.eq_zero_or_pos q with h0 | hpos
  · rw [h0] at hqr ⊢
    simp only [Nat.mul_zero, Nat.zero_add] at hqr
    constructor <;> simp <;> omega
  · have hmax : max 1 q = q := by omega
    rw [hmax, Nat.mul_comm q h]
    set t := h * q with ht
    omega

/-- C6 counterexample: a 100x100 original is resized to 1024x1024 — the
sharp call carries no `withoutEnlargement`, so an input smaller than the
bounding box is upscaled, refuting the never-upscale part of the claim. -/
theorem resize_upscales_small_input_cex :
    resizeInside 100 100 = (1024, 1024)
    ∧ ¬ ((resizeInside 100 100).1 ≤ 100 ∧ (resizeInside 100 100).2 ≤ 100) := by
  decide

/-- C6 amended: the derived thumbnail always fits within the 1024x1024
bounding box, its larger dimension is exactly 1024 (so inputs smaller than
the box are enlarged, contrary to the claim), the aspect ratio is
preserved within rounding (cross products differ by at most max w h), and
the output encoding matches the sniffed input type. -/
theorem resize_bounding_box_aspect (w h : Nat) (fmt : String)
    (hw : 1 ≤ w) (hh : 1 ≤ h) :
    (resizeInside w h).1 ≤ 1024
    ∧ (resizeInside w h).2 ≤ 1024
    ∧ max (resizeInside w h).1 (resizeInside w h).2 = 1024
    ∧ (resizeInside w h).1 * h ≤ (resizeInside w h).2 * w + max w h
    ∧ (resizeInside w h).2 * w ≤ (resizeInside w h).1 * h + max w h
    ∧ sharpOutputFormat fmt = fmt := by
  rcases Nat.le_total w h with hwh | hwh
  · have hm : max w h = h := Nat.max_eq_right hwh
    have hres : resizeInside w h = (scaleDim w h, scaleDim h h) := by
      unfold resizeInside
      rw [hm, if_neg (by omega)]
    have hself : scaleDim h h = 1024 := scaleDim_self h hh
    have hle : scaleDim w h ≤ 1024 := scaleDim_le w h hh hwh
    have hasp := scaleDim_aspect w h hw hwh
    rw [hres, hm]
    simp only [hself]
    refine ⟨hle, le_refl _, Nat.max_eq_right hle, ?_, ?_, rfl⟩
    · omega
    · omega
  · have hm : max w h = w := Nat.max_eq_left hwh
    have hres : resizeInside w h = (scaleDim w w, scaleDim h w) := by
      unfold resizeInside
      rw [hm, if_neg (by omega)]
    have hself : scaleDim w w = 1024 := scaleDim_self w hw
    have hle : scaleDim h w ≤ 1024 := scaleDim_le h w hw hwh
    have hasp := scaleDim_aspect h w hh hwh
    rw [hres, hm]
    simp only [hself]
    refine ⟨le_refl _, hle, Nat.max_eq_left hle, ?_, ?_, rfl⟩
    · omega
    · omega

/-- Witness for C6's amended theorem at an 800x600 PNG original. -/
theorem resize_bounding_box_aspect_witness :
    resizeInside 800 600 = (1024, 768)
    ∧ ((resizeInside 800 600).1 ≤ 1024
      ∧ (resizeInside 800 600).2 ≤ 1024
      ∧ max (resizeInside 800 600).1 (resizeInside 800 600).2 = 1024
      ∧ (resizeInside 800 600).1 * 600 ≤
          (resizeInside 800 600).2 * 800 + max 800 600
      ∧ (resizeInside 800 600).2 * 800 ≤
          (resizeInside 800 600).1 * 600 + max 800 600
      ∧ sharpOutputFormat "image/png" = "image/png") :=
  ⟨by decide,
   resize_bounding_box_aspect 800 600 "image/png" (by decide) (by decide)⟩

end PicHost
